import Mathlib

/-!
# Snake game engine: shallow embedding and verification

This file embeds the game-state engine of `src/src/components/SnakeGame.tsx`
(a grid-based snake simulation) in Lean 4 and proves the specified
properties about it.

Modelling conventions:
* JS numbers used as grid coordinates are modelled as `Int` (the moved head
  can temporarily leave the grid, e.g. `x = -1`, before the wall check).
* The score is modelled as `Nat` (it starts at `0` and only ever grows by `10`).
* `Math.random()`-driven food placement is modelled by abstracting the food
  generator: `moveSnake` takes a function `gen : List Position → Position`
  standing for `generateFood` applied to a fixed random stream, and
  `generateFood` itself is embedded over an explicit candidate stream
  `s : Nat → Position` (candidate `i` is the `i`-th pair of `Math.random()`
  draws); the `do … while` rejection loop returns the first candidate not on
  the snake, which exists exactly when the loop terminates.
* The React component state splits into the `GameState` record and the
  separate `isPlaying` flag; both are gathered in `EngineState`.  The spec's
  state machine reads off it as: `Idle` = `¬isPlaying`, `Over` = `gameOver`,
  `Paused` = `isPaused` (while playing), `Running` = playing, not over, not
  paused.
* The timer driver (lines 132–146) keeps the `moveSnake` interval alive
  exactly while `isPlaying && !gameOver && !isPaused`; `advanceTick` embeds
  one timer firing, i.e. it applies `moveSnake` only under that condition.
-/

/-- A grid cell, from `interface Position { x: number; y: number }`. -/
structure Position where
  x : Int
  y : Int
deriving DecidableEq, Repr

/-- `const GRID_SIZE = 20`. -/
def GRID_SIZE : Int := 20

/-- The four direction strings used by the component. -/
inductive Direction where
  | UP
  | DOWN
  | LEFT
  | RIGHT
deriving DecidableEq, Repr

/-- The game state record, from `interface GameState`. -/
structure GameState where
  snake : List Position
  food : Position
  direction : Direction
  score : Nat
  gameOver : Bool
  isPaused : Bool
deriving DecidableEq, Repr

/-- The engine state: the `GameState` plus the separate `isPlaying` flag. -/
structure EngineState where
  game : GameState
  isPlaying : Bool
deriving DecidableEq, Repr

/-- `const INITIAL_SNAKE = [{ x: 10, y: 10 }]`. -/
def INITIAL_SNAKE : List Position := [⟨10, 10⟩]

/-- `const INITIAL_FOOD = { x: 15, y: 15 }`. -/
def INITIAL_FOOD : Position := ⟨15, 15⟩

/-- The `switch (direction)` block of `moveSnake` (lines 71–84):
move the head one cell along the heading. -/
def movedHead (d : Direction) (p : Position) : Position :=
  match d with
  | .UP => { p with y := p.y - 1 }
  | .DOWN => { p with y := p.y + 1 }
  | .LEFT => { p with x := p.x - 1 }
  | .RIGHT => { p with x := p.x + 1 }

/-- The wall-collision test of `moveSnake` (line 87):
`head.x < 0 || head.x >= GRID_SIZE || head.y < 0 || head.y >= GRID_SIZE`. -/
def hitsWall (p : Position) : Prop :=
  p.x < 0 ∨ GRID_SIZE ≤ p.x ∨ p.y < 0 ∨ GRID_SIZE ≤ p.y

instance (p : Position) : Decidable (hitsWall p) := by
  unfold hitsWall; infer_instance

/-- A cell inside the grid: `0 ≤ x,y < GRID_SIZE`. -/
def inGrid (p : Position) : Prop :=
  0 ≤ p.x ∧ p.x < GRID_SIZE ∧ 0 ≤ p.y ∧ p.y < GRID_SIZE

instance (p : Position) : Decidable (inGrid p) := by
  unfold inGrid; infer_instance

/-- `generateFood` (lines 51–60): rejection sampling over the grid.  The
random draws are made explicit as the candidate stream `s`; the `do … while`
loop scans `s 0, s 1, …` and returns the first candidate not on the snake.
The hypothesis `hex` states that some candidate is free, which is exactly the
condition under which the source loop terminates. -/
def generateFood (snake : List Position) (s : Nat → Position)
    (hex : ∃ i, s i ∉ snake) : Position :=
  s (Nat.find hex)

/-- `moveSnake` (lines 63–128), one tick of the simulation.  `gen` abstracts
the call `generateFood(newSnake)` together with its random stream.  The
source reads `snake[0]`, so the snake is matched as `h :: t`; the `[]` case
is unreachable (the snake always has length ≥ 1) and is mapped to the
unchanged state. -/
def moveSnake (gen : List Position → Position) (g : GameState) : GameState :=
  if g.gameOver || g.isPaused then g
  else
    match g.snake with
    | [] => g
    | h :: t =>
      if hitsWall (movedHead g.direction h) then
        { g with gameOver := true }
      else if movedHead g.direction h ∈ h :: t then
        { g with gameOver := true }
      else if movedHead g.direction h = g.food then
        { g with snake := movedHead g.direction h :: h :: t,
                 food := gen (movedHead g.direction h :: h :: t),
                 score := g.score + 10 }
      else
        { g with snake := (movedHead g.direction h :: h :: t).dropLast }

/-- `startGame` (lines 242–253): fresh state with randomly placed food,
then `setIsPlaying(true)`. -/
def startGame (gen : List Position → Position) : EngineState :=
  { game := { snake := INITIAL_SNAKE, food := gen INITIAL_SNAKE,
              direction := .RIGHT, score := 0,
              gameOver := false, isPaused := false },
    isPlaying := true }

/-- `togglePause` (lines 255–259). -/
def togglePause (e : EngineState) : EngineState :=
  if !e.isPlaying || e.game.gameOver then e
  else { e with game := { e.game with isPaused := !e.game.isPaused } }

/-- `resetGame` (lines 261–272): `setIsPlaying(false)` and the literal
initial state (food at `INITIAL_FOOD`, not random). -/
def resetGame (_e : EngineState) : EngineState :=
  { game := { snake := INITIAL_SNAKE, food := INITIAL_FOOD,
              direction := .RIGHT, score := 0,
              gameOver := false, isPaused := false },
    isPlaying := false }

/-- The `switch (event.key)` block of `handleKeyPress` (lines 155–175):
the direction requested by key `d` given the current direction `dir`;
a direct reversal keeps the old direction. -/
def newDirectionOf (d : Direction) (dir : Direction) : Direction :=
  match d with
  | .UP => if dir ≠ .DOWN then .UP else dir
  | .DOWN => if dir ≠ .UP then .DOWN else dir
  | .LEFT => if dir ≠ .RIGHT then .LEFT else dir
  | .RIGHT => if dir ≠ .LEFT then .RIGHT else dir

/-- `handleKeyPress` (lines 149–185) restricted to the four directional
keys (`setHeading` in the spec): ignored unless playing and not over;
the state is rebuilt only when the direction actually changes (line 182).
Note the source does not test `isPaused`. -/
def handleKeyPress (d : Direction) (e : EngineState) : EngineState :=
  if !e.isPlaying || e.game.gameOver then e
  else if newDirectionOf d e.game.direction ≠ e.game.direction then
    { e with game := { e.game with direction := newDirectionOf d e.game.direction } }
  else e

/-- One firing of the timer driver (lines 132–146): the interval running
`moveSnake` is installed exactly while `isPlaying && !gameOver && !isPaused`,
so a tick advances the simulation only under that condition. -/
def advanceTick (gen : List Position → Position) (e : EngineState) : EngineState :=
  if e.isPlaying && !e.game.gameOver && !e.game.isPaused then
    { e with game := moveSnake gen e.game }
  else e

/-- The spec's `Running` state: playing, not over, not paused. -/
def Running (e : EngineState) : Prop :=
  e.isPlaying = true ∧ e.game.gameOver = false ∧ e.game.isPaused = false

instance (e : EngineState) : Decidable (Running e) := by
  unfold Running; infer_instance

/-- The direct reverse of a heading. -/
def dirReverse : Direction → Direction
  | .UP => .DOWN
  | .DOWN => .UP
  | .LEFT => .RIGHT
  | .RIGHT => .LEFT

/-- Engine states reachable via `start` followed by any sequence of ticks,
key presses, pause toggles and resets; the food generator (i.e. the random
stream) may differ at every generating step. -/
inductive Reachable : EngineState → Prop where
  | start (gen : List Position → Position) : Reachable (startGame gen)
  | tick {e : EngineState} (gen : List Position → Position) :
      Reachable e → Reachable (advanceTick gen e)
  | key {e : EngineState} (d : Direction) :
      Reachable e → Reachable (handleKeyPress d e)
  | pause {e : EngineState} :
      Reachable e → Reachable (togglePause e)
  | reset {e : EngineState} :
      Reachable e → Reachable (resetGame e)

/-- The snake invariant: cells pairwise distinct and inside the grid. -/
def SnakeOK (g : GameState) : Prop :=
  g.snake.Nodup ∧ ∀ p ∈ g.snake, inGrid p

instance (g : GameState) : Decidable (SnakeOK g) := by
  unfold SnakeOK; infer_instance

/-- The 20 × 20 grid as a finite set of cells. -/
def gridCells : Finset Position :=
  (Finset.Icc (0 : Int) 19 ×ˢ Finset.Icc (0 : Int) 19).image fun q => ⟨q.1, q.2⟩

/-- Enumeration of the grid used to instantiate the random candidate stream:
candidate `i` is cell `(i mod 20, i / 20 mod 20)`, so every grid cell occurs. -/
def cellOfIndex (i : Nat) : Position := ⟨(i % 20 : Nat), (i / 20 % 20 : Nat)⟩

/-- A degenerate food generator, used only to instantiate theorems at
concrete states. -/
def sampleGen : List Position → Position := fun _ => ⟨0, 0⟩

/-- A paused engine state (playing, not over, `isPaused = true`). -/
def pausedSample : EngineState :=
  { game := { snake := [⟨10, 10⟩], food := ⟨15, 15⟩, direction := .RIGHT,
              score := 0, gameOver := false, isPaused := true },
    isPlaying := true }

/-- The spec's eating scenario: snake `[(10,10)]`, heading RIGHT, food at
`(11,10)`, running. -/
def scenarioEat : EngineState :=
  { game := { snake := [⟨10, 10⟩], food := ⟨11, 10⟩, direction := .RIGHT,
              score := 0, gameOver := false, isPaused := false },
    isPlaying := true }

/-- The spec's wall scenario: snake `[(0,10)]`, heading LEFT, running. -/
def scenarioWall : EngineState :=
  { game := { snake := [⟨0, 10⟩], food := ⟨15, 15⟩, direction := .LEFT,
              score := 0, gameOver := false, isPaused := false },
    isPlaying := true }

/-- Tail-cell scenario: a length-2 snake whose moved head lands exactly on
the current tail cell `(4,5)`. -/
def scenarioTail : GameState :=
  { snake := [⟨5, 5⟩, ⟨4, 5⟩], food := ⟨15, 15⟩, direction := .LEFT,
    score := 0, gameOver := false, isPaused := false }

/-- A running state whose next move neither collides nor eats. -/
def plainSample : GameState :=
  { snake := [⟨5, 5⟩], food := ⟨15, 15⟩, direction := .RIGHT,
    score := 0, gameOver := false, isPaused := false }

lemma not_hitsWall_inGrid {p : Position} (h : ¬ hitsWall p) : inGrid p := by
  unfold hitsWall at h
  push_neg at h
  exact ⟨h.1, h.2.1, h.2.2.1, h.2.2.2⟩

lemma moveSnake_preserves (gen : List Position → Position) (g : GameState)
    (hg : SnakeOK g) : SnakeOK (moveSnake gen g) := by
  unfold moveSnake
  split
  · exact hg
  split
  · exact hg
  rename_i h t heq
  split
  · exact hg
  rename_i hw
  split
  · exact hg
  rename_i hself
  obtain ⟨hnd, hgr⟩ := hg
  rw [heq] at hnd hgr
  have hmh : inGrid (movedHead g.direction h) := not_hitsWall_inGrid hw
  split
  · refine ⟨List.nodup_cons.mpr ⟨hself, hnd⟩, ?_⟩
    intro p hp
    rcases List.mem_cons.mp hp with rfl | hp
    · exact hmh
    · exact hgr p hp
  · refine ⟨(List.dropLast_sublist _).nodup (List.nodup_cons.mpr ⟨hself, hnd⟩), ?_⟩
    intro p hp
    have hp' := (List.dropLast_sublist _).subset hp
    rcases List.mem_cons.mp hp' with rfl | hp'
    · exact hmh
    · exact hgr p hp'

lemma handleKeyPress_snake (d : Direction) (e : EngineState) :
    (handleKeyPress d e).game.snake = e.game.snake := by
  unfold handleKeyPress
  split
  · rfl
  split <;> rfl

lemma togglePause_snake (e : EngineState) :
    (togglePause e).game.snake = e.game.snake := by
  unfold togglePause
  split <;> rfl

lemma reachable_snakeOK {e : EngineState} (h : Reachable e) : SnakeOK e.game := by
  induction h with
  | start gen =>
      refine ⟨List.nodup_singleton _, ?_⟩
      intro p hp
      simp only [startGame, INITIAL_SNAKE, List.mem_singleton] at hp
      subst hp
      decide
  | tick gen _ ih =>
      unfold advanceTick
      split
      · exact moveSnake_preserves _ _ ih
      · exact ih
  | key d _ ih =>
      unfold SnakeOK
      rw [handleKeyPress_snake]
      exact ih
  | pause _ ih =>
      unfold SnakeOK
      rw [togglePause_snake]
      exact ih
  | reset _ _ =>
      refine ⟨List.nodup_singleton _, ?_⟩
      intro p hp
      simp only [resetGame, INITIAL_SNAKE, List.mem_singleton] at hp
      subst hp
      decide

example : movedHead .RIGHT ⟨10, 10⟩ = ⟨11, 10⟩ := by decide

example :
    (moveSnake (fun _ => ⟨0, 0⟩)
      { snake := [⟨10, 10⟩], food := ⟨11, 10⟩, direction := .RIGHT,
        score := 0, gameOver := false, isPaused := false }).snake
      = [⟨11, 10⟩, ⟨10, 10⟩] := by decide

example :
    (moveSnake (fun _ => ⟨0, 0⟩)
      { snake := [⟨0, 10⟩], food := ⟨15, 15⟩, direction := .LEFT,
        score := 0, gameOver := false, isPaused := false }).gameOver = true := by
  decide

lemma moveSnake_frozen (gen : List Position → Position) (g : GameState)
    (hover : g.gameOver = true) : moveSnake gen g = g := by
  unfold moveSnake
  rw [hover]
  simp

lemma moveSnake_wall (gen : List Position → Position) (g : GameState)
    (h : Position) (t : List Position) (hsnake : g.snake = h :: t)
    (hover : g.gameOver = false) (hpause : g.isPaused = false)
    (hwall : hitsWall (movedHead g.direction h)) :
    moveSnake gen g = { g with gameOver := true } := by
  unfold moveSnake
  rw [hover, hpause, hsnake]
  simp [hwall]

lemma moveSnake_self (gen : List Position → Position) (g : GameState)
    (h : Position) (t : List Position) (hsnake : g.snake = h :: t)
    (hover : g.gameOver = false) (hpause : g.isPaused = false)
    (hself : movedHead g.direction h ∈ h :: t) :
    moveSnake gen g = { g with gameOver := true } := by
  unfold moveSnake
  rw [hover, hpause, hsnake]
  by_cases hw : hitsWall (movedHead g.direction h)
  · simp [hw]
  · simp [hw, hself]

lemma moveSnake_eat (gen : List Position → Position) (g : GameState)
    (h : Position) (t : List Position) (hsnake : g.snake = h :: t)
    (hover : g.gameOver = false) (hpause : g.isPaused = false)
    (hwall : ¬ hitsWall (movedHead g.direction h))
    (hself : movedHead g.direction h ∉ h :: t)
    (hfood : movedHead g.direction h = g.food) :
    moveSnake gen g = { g with snake := g.food :: h :: t,
                               food := gen (g.food :: h :: t),
                               score := g.score + 10 } := by
  have hwall' : ¬ hitsWall g.food := hfood ▸ hwall
  have hself' : g.food ∉ h :: t := hfood ▸ hself
  unfold moveSnake
  rw [hover, hpause, hsnake]
  simp [hfood, hwall', hself']

lemma moveSnake_noeat (gen : List Position → Position) (g : GameState)
    (h : Position) (t : List Position) (hsnake : g.snake = h :: t)
    (hover : g.gameOver = false) (hpause : g.isPaused = false)
    (hwall : ¬ hitsWall (movedHead g.direction h))
    (hself : movedHead g.direction h ∉ h :: t)
    (hfood : movedHead g.direction h ≠ g.food) :
    moveSnake gen g =
      { g with snake := movedHead g.direction h :: (h :: t).dropLast } := by
  unfold moveSnake
  rw [hover, hpause, hsnake]
  simp [hwall, hself, hfood, List.dropLast]

lemma posOfPair_inj :
    Function.Injective (fun q : Int × Int => (⟨q.1, q.2⟩ : Position)) := by
  rintro ⟨a, b⟩ ⟨c, d⟩ hab
  simpa [Position.mk.injEq, Prod.ext_iff] using hab

lemma mem_gridCells {p : Position} : p ∈ gridCells ↔ inGrid p := by
  unfold gridCells inGrid GRID_SIZE
  constructor
  · intro hp
    simp only [Finset.mem_image, Finset.mem_product, Finset.mem_Icc] at hp
    obtain ⟨⟨a, b⟩, ⟨⟨h1, h2⟩, h3, h4⟩, rfl⟩ := hp
    show 0 ≤ a ∧ a < 20 ∧ 0 ≤ b ∧ b < 20
    omega
  · rintro ⟨h1, h2, h3, h4⟩
    simp only [Finset.mem_image, Finset.mem_product, Finset.mem_Icc]
    exact ⟨(p.x, p.y), ⟨⟨h1, by omega⟩, h3, by omega⟩, rfl⟩

lemma gridCells_card : gridCells.card = 400 := by
  unfold gridCells
  rw [Finset.card_image_of_injective _ posOfPair_inj, Finset.card_product,
    Int.card_Icc]
  decide

lemma exists_free_cell (snake : List Position)
    (hcard : snake.toFinset.card < 400) : ∃ p, inGrid p ∧ p ∉ snake := by
  by_contra hno
  push_neg at hno
  have hsub : gridCells ⊆ snake.toFinset := by
    intro p hp
    exact List.mem_toFinset.mpr (hno p (mem_gridCells.mp hp))
  have hle := Finset.card_le_card hsub
  rw [gridCells_card] at hle
  omega

lemma generateFood_not_mem (snake : List Position) (s : Nat → Position)
    (hex : ∃ i, s i ∉ snake) : generateFood snake s hex ∉ snake :=
  Nat.find_spec hex

lemma cellOfIndex_surjOnGrid (p : Position) (hp : inGrid p) :
    ∃ i, cellOfIndex i = p := by
  obtain ⟨px, py⟩ := p
  unfold inGrid GRID_SIZE at hp
  change 0 ≤ px ∧ px < 20 ∧ 0 ≤ py ∧ py < 20 at hp
  obtain ⟨h1, h2, h3, h4⟩ := hp
  refine ⟨px.toNat + 20 * py.toNat, ?_⟩
  unfold cellOfIndex
  have e1 : (px.toNat + 20 * py.toNat) % 20 = px.toNat := by omega
  have e2 : (px.toNat + 20 * py.toNat) / 20 % 20 = py.toNat := by omega
  rw [e1, e2]
  simp only [Position.mk.injEq]
  constructor <;> omega

lemma advanceTick_over (gen : List Position → Position) (e : EngineState)
    (hover : e.game.gameOver = true) : advanceTick gen e = e := by
  unfold advanceTick
  rw [hover]
  simp

/-- C1: for every engine state reachable via `start` followed by any
sequence of `advanceTick`, `setHeading`, `togglePause` and `reset`, the
snake's cells are pairwise distinct and every cell `(x, y)` satisfies
`0 ≤ x < 20` and `0 ≤ y < 20`. -/
theorem snake_cells_distinct_and_in_bounds (e : EngineState)
    (h : Reachable e) :
    e.game.snake.Nodup ∧
      ∀ p ∈ e.game.snake, 0 ≤ p.x ∧ p.x < 20 ∧ 0 ≤ p.y ∧ p.y < 20 := by
  obtain ⟨h1, h2⟩ := reachable_snakeOK h
  refine ⟨h1, fun p hp => ?_⟩
  have h3 := h2 p hp
  unfold inGrid GRID_SIZE at h3
  exact h3

/-- Witness for C1 at the freshly started state. -/
theorem snake_cells_distinct_and_in_bounds_witness :
    Reachable (startGame sampleGen) ∧
      ((startGame sampleGen).game.snake.Nodup ∧
        ∀ p ∈ (startGame sampleGen).game.snake,
          0 ≤ p.x ∧ p.x < 20 ∧ 0 ≤ p.y ∧ p.y < 20) :=
  ⟨Reachable.start sampleGen,
    snake_cells_distinct_and_in_bounds _ (Reachable.start sampleGen)⟩

/-- C2: in a Running state whose moved head lands exactly on the (in-grid,
off-snake) food cell, one tick grows the snake by exactly one cell, adds
exactly 10 to the score, and the new food cell is not inside the
post-growth snake.  `gen` abstracts the rejection sampler and `hgen` is the
sampler contract at the one call made, established for the embedded
`generateFood` by `generateFood_not_mem`. -/
theorem moveSnake_eat_spec (gen : List Position → Position) (g : GameState)
    (h : Position) (t : List Position) (hsnake : g.snake = h :: t)
    (hover : g.gameOver = false) (hpause : g.isPaused = false)
    (hhead : movedHead g.direction h = g.food)
    (hfgrid : ¬ hitsWall g.food) (hffree : g.food ∉ g.snake)
    (hgen : gen (g.food :: g.snake) ∉ g.food :: g.snake) :
    (moveSnake gen g).snake.length = g.snake.length + 1 ∧
    (moveSnake gen g).score = g.score + 10 ∧
    (moveSnake gen g).food ∉ (moveSnake gen g).snake := by
  have hself : movedHead g.direction h ∉ h :: t := by
    rw [hhead, ← hsnake]
    exact hffree
  have hwall : ¬ hitsWall (movedHead g.direction h) := by
    rw [hhead]
    exact hfgrid
  rw [hsnake] at hgen
  have hres := moveSnake_eat gen g h t hsnake hover hpause hwall hself hhead
  rw [hres]
  refine ⟨?_, rfl, ?_⟩
  · show (g.food :: h :: t).length = g.snake.length + 1
    rw [hsnake]
    rfl
  · exact hgen

/-- Witness for C2 at the concrete eating scenario. -/
theorem moveSnake_eat_spec_witness :
    (moveSnake sampleGen scenarioEat.game).snake.length
        = scenarioEat.game.snake.length + 1 ∧
    (moveSnake sampleGen scenarioEat.game).score
        = scenarioEat.game.score + 10 ∧
    (moveSnake sampleGen scenarioEat.game).food
        ∉ (moveSnake sampleGen scenarioEat.game).snake :=
  moveSnake_eat_spec sampleGen scenarioEat.game ⟨10, 10⟩ [] (by decide)
    (by decide) (by decide) (by decide) (by decide) (by decide) (by decide)

/-- C3: in a Running state where the moved head stays in the grid, misses
the body and misses the food, one tick keeps the length, the new head is
the prior head moved one cell along the heading (UP decrements y, DOWN
increments y, LEFT decrements x, RIGHT increments x) and the prior tail
cell is dropped; score, food and liveness are untouched. -/
theorem moveSnake_plain_move_spec (gen : List Position → Position)
    (g : GameState) (h : Position) (t : List Position)
    (hsnake : g.snake = h :: t)
    (hover : g.gameOver = false) (hpause : g.isPaused = false)
    (hwall : ¬ hitsWall (movedHead g.direction h))
    (hself : movedHead g.direction h ∉ g.snake)
    (hfood : movedHead g.direction h ≠ g.food) :
    (moveSnake gen g).snake = movedHead g.direction h :: (h :: t).dropLast ∧
    (moveSnake gen g).snake.length = g.snake.length ∧
    (moveSnake gen g).score = g.score ∧
    (moveSnake gen g).food = g.food ∧
    (moveSnake gen g).gameOver = false ∧
    movedHead g.direction h =
      (match g.direction with
       | Direction.UP => ⟨h.x, h.y - 1⟩
       | Direction.DOWN => ⟨h.x, h.y + 1⟩
       | Direction.LEFT => ⟨h.x - 1, h.y⟩
       | Direction.RIGHT => ⟨h.x + 1, h.y⟩) := by
  have hself' : movedHead g.direction h ∉ h :: t := by
    rw [← hsnake]
    exact hself
  have hres := moveSnake_noeat gen g h t hsnake hover hpause hwall hself' hfood
  rw [hres]
  refine ⟨rfl, ?_, rfl, rfl, hover, ?_⟩
  · show (movedHead g.direction h :: (h :: t).dropLast).length = g.snake.length
    rw [hsnake]
    simp [List.length_dropLast]
  · cases hd : g.direction <;> rfl

/-- Witness for C3 at a concrete plain move. -/
theorem moveSnake_plain_move_spec_witness :
    (moveSnake sampleGen plainSample).snake
        = movedHead plainSample.direction ⟨5, 5⟩
            :: ([(⟨5, 5⟩ : Position)]).dropLast ∧
    (moveSnake sampleGen plainSample).snake.length
        = plainSample.snake.length ∧
    (moveSnake sampleGen plainSample).score = plainSample.score ∧
    (moveSnake sampleGen plainSample).food = plainSample.food ∧
    (moveSnake sampleGen plainSample).gameOver = false ∧
    movedHead plainSample.direction ⟨5, 5⟩ =
      (match plainSample.direction with
       | Direction.UP => ⟨(5 : Int), (5 : Int) - 1⟩
       | Direction.DOWN => ⟨(5 : Int), (5 : Int) + 1⟩
       | Direction.LEFT => ⟨(5 : Int) - 1, (5 : Int)⟩
       | Direction.RIGHT => ⟨(5 : Int) + 1, (5 : Int)⟩) :=
  moveSnake_plain_move_spec sampleGen plainSample ⟨5, 5⟩ [] (by decide)
    rfl rfl (by decide) (by decide) (by decide)

/-- C4: a tick in any non-Running engine state (Idle, Paused or Over)
leaves the state completely unchanged. -/
theorem advanceTick_non_running_noop (gen : List Position → Position)
    (e : EngineState) (h : ¬ Running e) : advanceTick gen e = e := by
  have hc : ¬ ((e.isPlaying && !e.game.gameOver && !e.game.isPaused) = true) := by
    intro hc
    apply h
    simp only [Bool.and_eq_true, Bool.not_eq_true'] at hc
    exact ⟨hc.1.1, hc.1.2, hc.2⟩
  unfold advanceTick
  rw [if_neg hc]

/-- Witness for C4 at a paused state. -/
theorem advanceTick_non_running_noop_witness :
    ¬ Running pausedSample ∧
      advanceTick sampleGen pausedSample = pausedSample :=
  ⟨by decide, advanceTick_non_running_noop sampleGen pausedSample (by decide)⟩

/-- C5 counterexample: `pausedSample` is Paused — playing, not over,
`isPaused = true` — hence not Running, yet the key handler accepts the
heading change from RIGHT to UP: `setHeading` is not a no-op outside
`Running`, because the source (line 150) never tests `isPaused`. -/
theorem setHeading_paused_not_noop :
    ¬ Running pausedSample ∧
    pausedSample.game.isPaused = true ∧
    pausedSample.game.direction = Direction.RIGHT ∧
    (handleKeyPress Direction.UP pausedSample).game.direction = Direction.UP ∧
    handleKeyPress Direction.UP pausedSample ≠ pausedSample := by
  decide

/-- C5 (amended): `setHeading(h)` is a no-op when the engine is not playing
(Idle) or the game is over, or when `h` is the direct reverse of the
current heading, or when `h` equals the current heading; otherwise —
including while Paused — it updates only the heading, leaving every other
field of the state unchanged. -/
theorem setHeading_characterization (d : Direction) (e : EngineState) :
    (e.isPlaying = false ∨ e.game.gameOver = true ∨
        d = dirReverse e.game.direction ∨ d = e.game.direction →
      handleKeyPress d e = e) ∧
    (e.isPlaying = true → e.game.gameOver = false →
        d ≠ dirReverse e.game.direction → d ≠ e.game.direction →
      handleKeyPress d e =
        { e with game := { e.game with direction := d } }) := by
  obtain ⟨⟨sn, fd, dir, sc, go, ip⟩, pl⟩ := e
  cases d <;> cases dir <;> cases go <;> cases pl <;>
    simp [handleKeyPress, newDirectionOf, dirReverse]

/-- Witness for C5 (amended): an accepted and a rejected heading change. -/
theorem setHeading_characterization_witness :
    handleKeyPress Direction.UP scenarioEat =
      { scenarioEat with
          game := { scenarioEat.game with direction := Direction.UP } } ∧
    handleKeyPress Direction.LEFT scenarioEat = scenarioEat :=
  ⟨(setHeading_characterization Direction.UP scenarioEat).2 rfl rfl
      (by decide) (by decide),
   (setHeading_characterization Direction.LEFT scenarioEat).1
      (Or.inr (Or.inr (Or.inl (by decide))))⟩

/-- C6 counterexample: from the spec's eating scenario (snake `[(10,10)]`,
heading RIGHT, food `(11,10)`) one tick yields the length-2 snake
`[(11,10), (10,10)]`, not the single cell `[(11,10)]` the claim states:
eating grows the snake. -/
theorem eat_scenario_snake_not_singleton :
    (advanceTick sampleGen scenarioEat).game.snake = [⟨11, 10⟩, ⟨10, 10⟩] ∧
    (advanceTick sampleGen scenarioEat).game.snake
      ≠ [(⟨11, 10⟩ : Position)] := by
  decide

/-- C6 (amended): from the Running state with snake `[(10,10)]`, heading
RIGHT and food `(11,10)`, one `advanceTick` yields snake
`[(11,10), (10,10)]` (the new head plus the grown body), score 10, a food
cell outside the snake, and the game is not over.  `gen` abstracts the
sampler and `hgen` is its contract at the one call made. -/
theorem eat_scenario_result (gen : List Position → Position)
    (hgen : gen [⟨11, 10⟩, ⟨10, 10⟩]
      ∉ ([⟨11, 10⟩, ⟨10, 10⟩] : List Position)) :
    (advanceTick gen scenarioEat).game.snake = [⟨11, 10⟩, ⟨10, 10⟩] ∧
    (advanceTick gen scenarioEat).game.score = 10 ∧
    (advanceTick gen scenarioEat).game.food
      ∉ (advanceTick gen scenarioEat).game.snake ∧
    (advanceTick gen scenarioEat).game.gameOver = false := by
  have hm := moveSnake_eat gen scenarioEat.game ⟨10, 10⟩ [] (by decide)
    (by decide) (by decide) (by decide) (by decide) (by decide)
  have hcond : advanceTick gen scenarioEat =
      { scenarioEat with game := moveSnake gen scenarioEat.game } := rfl
  have hres : advanceTick gen scenarioEat =
      { game := { snake := [⟨11, 10⟩, ⟨10, 10⟩],
                  food := gen [⟨11, 10⟩, ⟨10, 10⟩],
                  direction := .RIGHT, score := 10,
                  gameOver := false, isPaused := false },
        isPlaying := true } := by
    rw [hcond, hm]
    rfl
  rw [hres]
  exact ⟨rfl, rfl, hgen, rfl⟩

/-- Witness for C6 (amended) at a concrete generator. -/
theorem eat_scenario_result_witness :
    (advanceTick sampleGen scenarioEat).game.snake = [⟨11, 10⟩, ⟨10, 10⟩] ∧
    (advanceTick sampleGen scenarioEat).game.score = 10 ∧
    (advanceTick sampleGen scenarioEat).game.food
      ∉ (advanceTick sampleGen scenarioEat).game.snake ∧
    (advanceTick sampleGen scenarioEat).game.gameOver = false :=
  eat_scenario_result sampleGen (by decide)

/-- C7: in a Running engine state whose moved head leaves the grid on
either axis, one tick sets only the `gameOver` flag — snake, food, heading
and score keep their pre-tick values — and every further tick leaves the
state unchanged. -/
theorem advanceTick_wall_over_and_frozen
    (gen genNext : List Position → Position) (e : EngineState)
    (h : Position) (t : List Position) (hsnake : e.game.snake = h :: t)
    (hpl : e.isPlaying = true) (hover : e.game.gameOver = false)
    (hpause : e.game.isPaused = false)
    (hwall : hitsWall (movedHead e.game.direction h)) :
    advanceTick gen e = { e with game := { e.game with gameOver := true } } ∧
    advanceTick genNext (advanceTick gen e) = advanceTick gen e := by
  have hcond : (e.isPlaying && !e.game.gameOver && !e.game.isPaused) = true := by
    rw [hpl, hover, hpause]
    rfl
  have h1 : advanceTick gen e =
      { e with game := { e.game with gameOver := true } } := by
    unfold advanceTick
    rw [if_pos hcond, moveSnake_wall gen e.game h t hsnake hover hpause hwall]
  refine ⟨h1, ?_⟩
  rw [h1]
  exact advanceTick_over genNext _ rfl

/-- Witness for C7 at the spec's wall scenario (snake `[(0,10)]`, LEFT). -/
theorem advanceTick_wall_over_and_frozen_witness :
    advanceTick sampleGen scenarioWall =
      { scenarioWall with
          game := { scenarioWall.game with gameOver := true } } ∧
    advanceTick sampleGen (advanceTick sampleGen scenarioWall) =
      advanceTick sampleGen scenarioWall :=
  advanceTick_wall_over_and_frozen sampleGen sampleGen scenarioWall
    ⟨0, 10⟩ [] (by decide) rfl rfl rfl (by decide)

/-- C8: `reset()` from any state yields a GameState equal to the
post-`start` state in every field except the food cell — single default
snake cell `[(10,10)]`, default heading RIGHT, score 0, not over, not
paused — and the engine returns to Idle (`isPlaying = false`). -/
theorem resetGame_matches_start_except_food (e : EngineState)
    (gen : List Position → Position) :
    (resetGame e).game.snake = (startGame gen).game.snake ∧
    (resetGame e).game.direction = (startGame gen).game.direction ∧
    (resetGame e).game.score = (startGame gen).game.score ∧
    (resetGame e).game.gameOver = (startGame gen).game.gameOver ∧
    (resetGame e).game.isPaused = (startGame gen).game.isPaused ∧
    (resetGame e).game.snake = [⟨10, 10⟩] ∧
    (resetGame e).game.direction = Direction.RIGHT ∧
    (resetGame e).game.score = 0 ∧
    (resetGame e).game.gameOver = false ∧
    (resetGame e).game.isPaused = false ∧
    (resetGame e).isPlaying = false :=
  ⟨rfl, rfl, rfl, rfl, rfl, rfl, rfl, rfl, rfl, rfl, rfl⟩

/-- C9: for any snake occupying strictly fewer than `GRID_SIZE² = 400`
cells and any candidate stream that (as the uniform sampler does with
probability 1) hits every grid cell, the rejection loop terminates — a free
candidate exists, which is exactly the loop's exit condition, so
`generateFood` is defined — and the returned cell is not occupied by the
snake at call time. -/
theorem generateFood_terminates_and_fresh (snake : List Position)
    (s : Nat → Position) (hs : ∀ p, inGrid p → ∃ i, s i = p)
    (hcard : snake.toFinset.card < 400) :
    ∃ hex : ∃ i, s i ∉ snake, generateFood snake s hex ∉ snake := by
  obtain ⟨p, hpg, hpf⟩ := exists_free_cell snake hcard
  obtain ⟨i, hi⟩ := hs p hpg
  have hex : ∃ i, s i ∉ snake := ⟨i, by rw [hi]; exact hpf⟩
  exact ⟨hex, generateFood_not_mem snake s hex⟩

/-- Witness for C9: the initial snake and the enumerating stream. -/
theorem generateFood_terminates_and_fresh_witness :
    ∃ hex : ∃ i, cellOfIndex i ∉ INITIAL_SNAKE,
      generateFood INITIAL_SNAKE cellOfIndex hex ∉ INITIAL_SNAKE :=
  generateFood_terminates_and_fresh INITIAL_SNAKE cellOfIndex
    cellOfIndex_surjOnGrid (by decide)

/-- C10: self-collision is checked against the full pre-move body including
the current tail cell: whenever the moved head coincides with any cell of
the pre-move snake — even the tail that would be vacated this tick — the
tick ends the game, settling the spec's open tail-cell policy as "counts as
a collision". -/
theorem self_collision_includes_tail (gen : List Position → Position)
    (g : GameState) (h : Position) (t : List Position)
    (hsnake : g.snake = h :: t)
    (hover : g.gameOver = false) (hpause : g.isPaused = false)
    (hmem : movedHead g.direction h ∈ g.snake) :
    moveSnake gen g = { g with gameOver := true } := by
  have hmem' : movedHead g.direction h ∈ h :: t := by
    rw [← hsnake]
    exact hmem
  exact moveSnake_self gen g h t hsnake hover hpause hmem'

/-- Witness for C10: a length-2 snake moving onto its current tail cell. -/
theorem self_collision_includes_tail_witness :
    moveSnake sampleGen scenarioTail = { scenarioTail with gameOver := true } :=
  self_collision_includes_tail sampleGen scenarioTail ⟨5, 5⟩ [⟨4, 5⟩]
    (by decide) rfl rfl (by decide)
